import Mathlib

/-!
Shallow embedding of `src/common.mts`, the shared protocol / movement module of a
multiplayer game prototype. JavaScript `number`s are modelled as rationals (`ℚ`);
machine-level byte stores are modelled as functions `ℕ → ℕ`; untyped wire values
are modelled by the inductive `JSValue`.
-/

namespace Common

/-! ### Constants (src/common.mts lines 3-8) -/

def SERVER_PORT : ℕ := 6970
def WORLD_FACTOR : ℚ := 200
def WORLD_WIDTH : ℚ := 4 * WORLD_FACTOR
def WORLD_HEIGHT : ℚ := 3 * WORLD_FACTOR
def PLAYER_SIZE : ℚ := 30
def PLAYER_SPEED : ℚ := 500

/-! ### Directions and vectors (lines 10-26) -/

inductive Direction where
  | left
  | right
  | up
  | down
deriving DecidableEq, Repr

structure Vector2 where
  x : ℚ
  y : ℚ
deriving DecidableEq, Repr

/-- The table `DIRECTION_VECTORS` as an ordered association list: JS `for..in` over the
object literal iterates its own string keys in declaration order, which is the
order of this list. -/
def DIRECTION_VECTORS : List (Direction × Vector2) :=
  [(.left,  ⟨-1, 0⟩),
   (.right, ⟨1, 0⟩),
   (.up,    ⟨0, -1⟩),
   (.down,  ⟨0, 1⟩)]

/-- The type `Moving = \x7b[key in Direction]: boolean\x7d` of flag records. -/
def Moving : Type := Direction → Bool

structure Player where
  id : ℚ
  x : ℚ
  y : ℚ
  moving : Moving
  hue : ℚ

/-! ### properMod and updatePlayer (lines 175-196) -/

/-- Truncation toward zero, as JavaScript's `%` (and `ToUint8`/`ToUint32`)
truncate their operands. -/
def ratTrunc (q : ℚ) : ℤ := if q < 0 then ⌈q⌉ else ⌊q⌋

/-- JavaScript's `%` on finite numbers with nonzero divisor: the remainder of
truncating division, with the sign of the dividend. -/
def jsRem (a b : ℚ) : ℚ := a - b * ratTrunc (a / b)

/-- The function `properMod(a, b) = (a%b + b)%b` (line 176). -/
def properMod (a b : ℚ) : ℚ := jsRem (jsRem a b + b) b

/-- The `for (dir in DIRECTION_VECTORS)` loop of `updatePlayer` (lines 183-188):
sum the vectors of the directions flagged in `moving`. -/
def movementSum (moving : Moving) : ℚ × ℚ :=
  DIRECTION_VECTORS.foldl
    (fun acc dv => if moving dv.1 then (acc.1 + dv.2.x, acc.2 + dv.2.y) else acc)
    (0, 0)

/-- The function `updatePlayer(player, deltaTime)` (lines 179-196), as a pure state
transformer: the source mutates `player.x`/`player.y` in place. -/
def updatePlayer (player : Player) (deltaTime : ℚ) : Player :=
  let d := movementSum player.moving
  let l := d.1 * d.1 + d.2 * d.2
  let dx := if l ≠ 0 then d.1 / l else d.1
  let dy := if l ≠ 0 then d.2 / l else d.2
  { player with
    x := properMod (player.x + dx * PLAYER_SPEED * deltaTime) WORLD_WIDTH,
    y := properMod (player.y + dy * PLAYER_SPEED * deltaTime) WORLD_HEIGHT }

/-! ### Arithmetic facts about `ratTrunc`, `jsRem`, `properMod` -/

theorem ratTrunc_le_self {q : ℚ} (h : 0 ≤ q) : (ratTrunc q : ℚ) ≤ q := by
  unfold ratTrunc
  rw [if_neg (not_lt.mpr h)]
  exact Int.floor_le q

theorem self_sub_one_lt_ratTrunc {q : ℚ} (h : 0 ≤ q) : q - 1 < (ratTrunc q : ℚ) := by
  unfold ratTrunc
  rw [if_neg (not_lt.mpr h)]
  have := Int.lt_floor_add_one q
  linarith

theorem le_ratTrunc_self {q : ℚ} (h : q < 0) : q ≤ (ratTrunc q : ℚ) := by
  unfold ratTrunc
  rw [if_pos h]
  exact Int.le_ceil q

theorem ratTrunc_lt_self_add_one {q : ℚ} (h : q < 0) : (ratTrunc q : ℚ) < q + 1 := by
  unfold ratTrunc
  rw [if_pos h]
  exact Int.ceil_lt_add_one q

theorem jsRem_bounds {a b : ℚ} (hb : 0 < b) : -b < jsRem a b ∧ jsRem a b < b := by
  unfold jsRem
  have hba : b * (a / b) = a := by field_simp
  rcases le_or_lt 0 (a / b) with h | h
  · have h1 : (ratTrunc (a / b) : ℚ) ≤ a / b := ratTrunc_le_self h
    have h2 : a / b - 1 < (ratTrunc (a / b) : ℚ) := self_sub_one_lt_ratTrunc h
    have e1 : b * (ratTrunc (a / b) : ℚ) ≤ a := by
      calc b * (ratTrunc (a / b) : ℚ) ≤ b * (a / b) := by
            exact mul_le_mul_of_nonneg_left h1 hb.le
        _ = a := hba
    have e2 : a - b < b * (ratTrunc (a / b) : ℚ) := by
      have := mul_lt_mul_of_pos_left h2 hb
      rw [mul_sub, hba, mul_one] at this
      linarith
    constructor <;> linarith
  · have h1 : a / b ≤ (ratTrunc (a / b) : ℚ) := le_ratTrunc_self h
    have h2 : (ratTrunc (a / b) : ℚ) < a / b + 1 := ratTrunc_lt_self_add_one h
    have e1 : a ≤ b * (ratTrunc (a / b) : ℚ) := by
      calc a = b * (a / b) := hba.symm
        _ ≤ b * (ratTrunc (a / b) : ℚ) := mul_le_mul_of_nonneg_left h1 hb.le
    have e2 : b * (ratTrunc (a / b) : ℚ) < a + b := by
      have := mul_lt_mul_of_pos_left h2 hb
      rw [mul_add, hba, mul_one] at this
      linarith
    constructor <;> linarith

theorem jsRem_eq_self {a b : ℚ} (h0 : 0 ≤ a) (hab : a < b) : jsRem a b = a := by
  have hb : 0 < b := lt_of_le_of_lt h0 hab
  have hq : 0 ≤ a / b := div_nonneg h0 hb.le
  have hq1 : a / b < 1 := (div_lt_one hb).mpr hab
  unfold jsRem ratTrunc
  rw [if_neg (not_lt.mpr hq), Int.floor_eq_zero_iff.mpr (Set.mem_Ico.mpr ⟨hq, hq1⟩)]
  push_cast
  ring

theorem jsRem_eq_sub {a b : ℚ} (hb : 0 < b) (h1 : b ≤ a) (h2 : a < 2 * b) :
    jsRem a b = a - b := by
  have hq : (1 : ℚ) ≤ a / b := (le_div_iff₀ hb).mpr (by linarith)
  have hq1 : a / b < 2 := (div_lt_iff₀ hb).mpr (by linarith)
  have hfl : ⌊a / b⌋ = 1 := Int.floor_eq_iff.mpr ⟨by push_cast; linarith, by push_cast; linarith⟩
  unfold jsRem ratTrunc
  rw [if_neg (not_lt.mpr (by linarith : (0 : ℚ) ≤ a / b)), hfl]
  push_cast
  ring

theorem properMod_nonneg_lt {a b : ℚ} (hb : 0 < b) :
    0 ≤ properMod a b ∧ properMod a b < b := by
  obtain ⟨hr1, hr2⟩ := jsRem_bounds (a := a) hb
  unfold properMod
  rcases lt_or_le (jsRem a b + b) b with hc | hc
  · rw [jsRem_eq_self (by linarith) hc]
    constructor <;> linarith
  · rw [jsRem_eq_sub hb hc (by linarith)]
    constructor <;> linarith

theorem properMod_eq_self {a b : ℚ} (h0 : 0 ≤ a) (hab : a < b) : properMod a b = a := by
  have hb : 0 < b := lt_of_le_of_lt h0 hab
  unfold properMod
  rw [jsRem_eq_self h0 hab, jsRem_eq_sub hb (by linarith) (by linarith)]
  ring

theorem properMod_eq_sub {a b : ℚ} (hb : 0 < b) (h1 : b ≤ a) (h2 : a < 2 * b) :
    properMod a b = a - b := by
  unfold properMod
  rw [jsRem_eq_sub hb h1 h2, show a - b + b = a by ring, jsRem_eq_sub hb h1 h2]

theorem WORLD_WIDTH_pos : (0 : ℚ) < WORLD_WIDTH := by
  norm_num [WORLD_WIDTH, WORLD_FACTOR]

theorem WORLD_HEIGHT_pos : (0 : ℚ) < WORLD_HEIGHT := by
  norm_num [WORLD_HEIGHT, WORLD_FACTOR]

/-- One `updatePlayer` call always lands both coordinates inside the world
bounds, because both axes go through `properMod`. -/
theorem updatePlayer_mem (p : Player) (dt : ℚ) :
    (0 ≤ (updatePlayer p dt).x ∧ (updatePlayer p dt).x < WORLD_WIDTH) ∧
    (0 ≤ (updatePlayer p dt).y ∧ (updatePlayer p dt).y < WORLD_HEIGHT) := by
  simp only [updatePlayer]
  exact ⟨properMod_nonneg_lt WORLD_WIDTH_pos, properMod_nonneg_lt WORLD_HEIGHT_pos⟩

/-- Claim C1: for every player whose position starts inside the world bounds and
every finite non-negative `deltaTime`, after any sequence of `updatePlayer`
calls the player's `x` stays in `[0, WORLD_WIDTH)` and `y` stays in
`[0, WORLD_HEIGHT)`: the wrap `properMod` (the sign-correct modulo
`((a % b) + b) % b`) never produces a negative coordinate or one `≥` the
bound. -/
theorem updatePlayer_wrap_invariant (p : Player) (dts : List ℚ)
    (hx : 0 ≤ p.x ∧ p.x < WORLD_WIDTH) (hy : 0 ≤ p.y ∧ p.y < WORLD_HEIGHT)
    (hdt : ∀ dt ∈ dts, 0 ≤ dt) :
    (0 ≤ (dts.foldl updatePlayer p).x ∧ (dts.foldl updatePlayer p).x < WORLD_WIDTH) ∧
    (0 ≤ (dts.foldl updatePlayer p).y ∧ (dts.foldl updatePlayer p).y < WORLD_HEIGHT) := by
  induction dts generalizing p with
  | nil => exact ⟨hx, hy⟩
  | cons dt rest ih =>
    simp only [List.foldl_cons]
    exact ih (updatePlayer p dt) (updatePlayer_mem p dt).1 (updatePlayer_mem p dt).2
      (fun d hd => hdt d (List.mem_cons_of_mem dt hd))

theorem updatePlayer_wrap_invariant_witness :
    (0 ≤ (([1, 1/2] : List ℚ).foldl updatePlayer ⟨0, 10, 20, fun _ => true, 0⟩).x ∧
      (([1, 1/2] : List ℚ).foldl updatePlayer ⟨0, 10, 20, fun _ => true, 0⟩).x < WORLD_WIDTH) ∧
    (0 ≤ (([1, 1/2] : List ℚ).foldl updatePlayer ⟨0, 10, 20, fun _ => true, 0⟩).y ∧
      (([1, 1/2] : List ℚ).foldl updatePlayer ⟨0, 10, 20, fun _ => true, 0⟩).y < WORLD_HEIGHT) :=
  updatePlayer_wrap_invariant ⟨0, 10, 20, fun _ => true, 0⟩ [1, 1/2]
    (by constructor <;> norm_num [WORLD_WIDTH, WORLD_FACTOR])
    (by constructor <;> norm_num [WORLD_HEIGHT, WORLD_FACTOR])
    (by intro dt hdt; fin_cases hdt <;> norm_num)

/-- Claim C7: with all four `moving` flags false and the position inside the world
bounds, `updatePlayer` leaves `x` and `y` unchanged for any `deltaTime`. -/
theorem updatePlayer_idle (p : Player) (dt : ℚ)
    (hm : ∀ d, p.moving d = false)
    (hx0 : 0 ≤ p.x) (hx1 : p.x < WORLD_WIDTH) (hy0 : 0 ≤ p.y) (hy1 : p.y < WORLD_HEIGHT) :
    (updatePlayer p dt).x = p.x ∧ (updatePlayer p dt).y = p.y := by
  have hsum : movementSum p.moving = (0, 0) := by
    simp [movementSum, DIRECTION_VECTORS, hm]
  simp only [updatePlayer, hsum]
  norm_num
  exact ⟨properMod_eq_self hx0 hx1, properMod_eq_self hy0 hy1⟩

theorem updatePlayer_idle_witness :
    (updatePlayer ⟨7, 123, 456, fun _ => false, 9⟩ (5/2)).x = (123 : ℚ) ∧
    (updatePlayer ⟨7, 123, 456, fun _ => false, 9⟩ (5/2)).y = (456 : ℚ) :=
  updatePlayer_idle ⟨7, 123, 456, fun _ => false, 9⟩ (5/2) (fun _ => rfl)
    (by norm_num) (by norm_num [WORLD_WIDTH, WORLD_FACTOR])
    (by norm_num) (by norm_num [WORLD_HEIGHT, WORLD_FACTOR])

/-- Claim C9: `updatePlayer` only ever touches `x` and `y`: `id`, `hue` and the
`moving` record are returned untouched. -/
theorem updatePlayer_frame (p : Player) (dt : ℚ) :
    (updatePlayer p dt).id = p.id ∧ (updatePlayer p dt).hue = p.hue ∧
    (updatePlayer p dt).moving = p.moving :=
  ⟨rfl, rfl, rfl⟩

/-- A `Moving` record with exactly the flag for direction `d` set. -/
def movingOnly (d : Direction) : Moving := fun e => decide (e = d)

/-- Claim C6: with exactly one `moving` flag set, only the corresponding axis
changes, by `PLAYER_SPEED * deltaTime` wrapped into the world; concretely a
player at `(790, 300)` moving right with `deltaTime = 1/10` ends at
`(40, 300)`. -/
theorem updatePlayer_single_direction (p : Player) (dt : ℚ)
    (hx0 : 0 ≤ p.x) (hx1 : p.x < WORLD_WIDTH) (hy0 : 0 ≤ p.y) (hy1 : p.y < WORLD_HEIGHT) :
    (p.moving = movingOnly .right →
      (updatePlayer p dt).x = properMod (p.x + PLAYER_SPEED * dt) WORLD_WIDTH ∧
      (updatePlayer p dt).y = p.y) ∧
    (p.moving = movingOnly .left →
      (updatePlayer p dt).x = properMod (p.x - PLAYER_SPEED * dt) WORLD_WIDTH ∧
      (updatePlayer p dt).y = p.y) ∧
    (p.moving = movingOnly .up →
      (updatePlayer p dt).x = p.x ∧
      (updatePlayer p dt).y = properMod (p.y - PLAYER_SPEED * dt) WORLD_HEIGHT) ∧
    (p.moving = movingOnly .down →
      (updatePlayer p dt).x = p.x ∧
      (updatePlayer p dt).y = properMod (p.y + PLAYER_SPEED * dt) WORLD_HEIGHT) ∧
    (∀ pid phue : ℚ,
      (updatePlayer ⟨pid, 790, 300, movingOnly .right, phue⟩ (1/10)).x = 40 ∧
      (updatePlayer ⟨pid, 790, 300, movingOnly .right, phue⟩ (1/10)).y = 300) := by
  have hright : movementSum (movingOnly .right) = (1, 0) := by
    simp [movementSum, DIRECTION_VECTORS, movingOnly]
  have hleft : movementSum (movingOnly .left) = (-1, 0) := by
    simp [movementSum, DIRECTION_VECTORS, movingOnly]
  have hup : movementSum (movingOnly .up) = (0, -1) := by
    simp [movementSum, DIRECTION_VECTORS, movingOnly]
  have hdown : movementSum (movingOnly .down) = (0, 1) := by
    simp [movementSum, DIRECTION_VECTORS, movingOnly]
  refine ⟨?_, ?_, ?_, ?_, ?_⟩
  · intro hm
    simp only [updatePlayer, hm, hright]
    norm_num
    exact properMod_eq_self hy0 hy1
  · intro hm
    simp only [updatePlayer, hm, hleft]
    norm_num
    constructor
    · rw [show p.x + -(PLAYER_SPEED * dt) = p.x - PLAYER_SPEED * dt by ring]
    · exact properMod_eq_self hy0 hy1
  · intro hm
    simp only [updatePlayer, hm, hup]
    norm_num
    constructor
    · exact properMod_eq_self hx0 hx1
    · rw [show p.y + -(PLAYER_SPEED * dt) = p.y - PLAYER_SPEED * dt by ring]
  · intro hm
    simp only [updatePlayer, hm, hdown]
    norm_num
    exact properMod_eq_self hx0 hx1
  · intro pid phue
    simp only [updatePlayer, hright]
    norm_num [PLAYER_SPEED]
    constructor
    · rw [properMod_eq_sub WORLD_WIDTH_pos (by norm_num [WORLD_WIDTH, WORLD_FACTOR])
        (by norm_num [WORLD_WIDTH, WORLD_FACTOR])]
      norm_num [WORLD_WIDTH, WORLD_FACTOR]
    · exact properMod_eq_self (by norm_num) (by norm_num [WORLD_HEIGHT, WORLD_FACTOR])

theorem updatePlayer_single_direction_witness :
    (updatePlayer ⟨3, 790, 300, movingOnly .right, 11⟩ (1/10)).x = 40 ∧
    (updatePlayer ⟨3, 790, 300, movingOnly .right, 11⟩ (1/10)).y = 300 :=
  (updatePlayer_single_direction ⟨3, 790, 300, movingOnly .right, 11⟩ (1/10)
    (by norm_num) (by norm_num [WORLD_WIDTH, WORLD_FACTOR])
    (by norm_num) (by norm_num [WORLD_HEIGHT, WORLD_FACTOR])).2.2.2.2 3 11

/-- The `moving` record of spec scenario B: `up` and `right` set, others not. -/
def movingUpRight : Moving := fun e => decide (e = .up) || decide (e = .right)

/-- Claim C5: with `up` and `right` set, speed `500` and `deltaTime = 1/10`,
`updatePlayer` sums the direction vectors to `(1, -1)` of squared length `2`,
divides components by that squared length to `(1/2, -1/2)`, and displaces the
position by `(+25, -25)` before wrapping. -/
theorem updatePlayer_diagonal (p : Player) (hm : p.moving = movingUpRight) :
    movementSum p.moving = (1, -1) ∧
    ((movementSum p.moving).1 * (movementSum p.moving).1 +
      (movementSum p.moving).2 * (movementSum p.moving).2) = 2 ∧
    (movementSum p.moving).1 / 2 = 1 / 2 ∧
    (movementSum p.moving).2 / 2 = -(1 / 2) ∧
    (1 / 2 : ℚ) * PLAYER_SPEED * (1 / 10) = 25 ∧
    (updatePlayer p (1/10)).x = properMod (p.x + 25) WORLD_WIDTH ∧
    (updatePlayer p (1/10)).y = properMod (p.y - 25) WORLD_HEIGHT := by
  have hsum : movementSum p.moving = (1, -1) := by
    simp [hm, movementSum, DIRECTION_VECTORS, movingUpRight]
  refine ⟨hsum, by rw [hsum]; try norm_num, by rw [hsum]; try norm_num,
    by rw [hsum]; try norm_num, by norm_num [PLAYER_SPEED], ?_, ?_⟩
  · simp only [updatePlayer, hsum]
    norm_num [PLAYER_SPEED]
  · simp only [updatePlayer, hsum]
    norm_num [PLAYER_SPEED]
    try (rw [show p.y + (-25 : ℚ) = p.y - 25 by ring])

theorem updatePlayer_diagonal_witness :
    movementSum (Player.moving ⟨2, 100, 200, movingUpRight, 8⟩) = (1, -1) ∧
    ((movementSum (Player.moving ⟨2, 100, 200, movingUpRight, 8⟩)).1 *
        (movementSum (Player.moving ⟨2, 100, 200, movingUpRight, 8⟩)).1 +
      (movementSum (Player.moving ⟨2, 100, 200, movingUpRight, 8⟩)).2 *
        (movementSum (Player.moving ⟨2, 100, 200, movingUpRight, 8⟩)).2) = 2 ∧
    (movementSum (Player.moving ⟨2, 100, 200, movingUpRight, 8⟩)).1 / 2 = 1 / 2 ∧
    (movementSum (Player.moving ⟨2, 100, 200, movingUpRight, 8⟩)).2 / 2 = -(1 / 2) ∧
    (1 / 2 : ℚ) * PLAYER_SPEED * (1 / 10) = 25 ∧
    (updatePlayer ⟨2, 100, 200, movingUpRight, 8⟩ (1/10)).x =
      properMod ((100 : ℚ) + 25) WORLD_WIDTH ∧
    (updatePlayer ⟨2, 100, 200, movingUpRight, 8⟩ (1/10)).y =
      properMod ((200 : ℚ) - 25) WORLD_HEIGHT :=
  updatePlayer_diagonal ⟨2, 100, 200, movingUpRight, 8⟩ rfl

/-! ### Binary schema builder (lines 53-111)

The byte store of a `DataView` is modelled as a total map from byte index to
stored byte; every write stores values `< 256`. All multi-byte accessors of
the source pass `littleEndian = true`. -/

def View : Type := ℕ → ℕ

/-- ECMAScript `ToUint8` / `ToUint32` (the conversions applied by
`DataView.setUint8` / `setUint32`): truncate toward zero, then reduce by the
sign-correct modulo `2 ^ w`. -/
def toJsUint (w : ℕ) (q : ℚ) : ℕ := (ratTrunc q % (2 ^ w : ℤ)).toNat

def getUint8 (view : View) (off : ℕ) : ℚ := (view off : ℚ)

def setUint8 (view : View) (off : ℕ) (value : ℚ) : View :=
  fun i => if i = off then toJsUint 8 value else view i

def getUint32 (view : View) (off : ℕ) : ℚ :=
  ((view off + view (off + 1) * 256 + view (off + 2) * 65536 +
    view (off + 3) * 16777216 : ℕ) : ℚ)

def setUint32 (view : View) (off : ℕ) (value : ℚ) : View :=
  fun i =>
    if i = off then toJsUint 32 value % 256
    else if i = off + 1 then toJsUint 32 value / 256 % 256
    else if i = off + 2 then toJsUint 32 value / 65536 % 256
    else if i = off + 3 then toJsUint 32 value / 16777216 % 256
    else view i

/-! #### IEEE-754 binary32, as stored by `DataView.setFloat32` -/

/-- Round a rational to the nearest integer, ties to even (the rounding mode
of IEEE-754 float conversions). -/
def roundNearestEven (q : ℚ) : ℤ :=
  if q - ⌊q⌋ < 1/2 then ⌊q⌋
  else if 1/2 < q - ⌊q⌋ then ⌊q⌋ + 1
  else if ⌊q⌋ % 2 = 0 then ⌊q⌋ else ⌊q⌋ + 1

def f32sign (q : ℚ) : ℕ := if q < 0 then 2147483648 else 0

/-- Binade of `q` (exponent before mantissa-overflow renormalisation),
clamped below at `-126`, the subnormal scale. -/
def f32rawExp (q : ℚ) : ℤ := max (Int.log 2 |q|) (-126)

/-- Mantissa of `|q|` at scale `2 ^ (f32rawExp q - 23)`, rounded to nearest,
ties to even: in `[2^23, 2^24)` for normal values, below `2^23` for
subnormal ones, exactly `2^24` when rounding overflowed the binade. -/
def f32rawMantissa (q : ℚ) : ℤ :=
  roundNearestEven (|q| * (2 : ℚ) ^ (23 - f32rawExp q))

def f32exp (q : ℚ) : ℤ :=
  if 16777216 ≤ f32rawMantissa q then f32rawExp q + 1 else f32rawExp q

def f32mantissa (q : ℚ) : ℤ :=
  if 16777216 ≤ f32rawMantissa q then 8388608 else f32rawMantissa q

/-- IEEE-754 binary32 bit pattern of the single-precision value nearest to
`q` (round to nearest, ties to even); magnitudes rounding beyond the largest
finite binary32 encode `±Infinity` (exponent field 255, mantissa 0). -/
def f32bitsOfRat (q : ℚ) : ℕ :=
  if q = 0 then 0
  else if 128 ≤ f32exp q then f32sign q + 2139095040
  else if f32mantissa q < 8388608 then f32sign q + (f32mantissa q).toNat
  else f32sign q + (f32exp q + 127).toNat * 8388608 + (f32mantissa q - 8388608).toNat

/-- Rational value of a binary32 bit pattern. An exponent field of 255
(`±Infinity` / `NaN`) has no rational value and is mapped to `0`; it is never
produced by encoding a value inside binary32 range. -/
def ratOfF32bits (b : ℕ) : ℚ :=
  if b / 8388608 % 256 = 0 then
    (if b / 2147483648 % 2 = 1 then -1 else 1) * (b % 8388608 : ℕ) * (2 : ℚ) ^ (-(149 : ℤ))
  else if b / 8388608 % 256 = 255 then 0
  else
    (if b / 2147483648 % 2 = 1 then -1 else 1) * ((8388608 + b % 8388608 : ℕ) : ℚ) *
      (2 : ℚ) ^ ((b / 8388608 % 256 : ℕ) - (150 : ℤ))

/-- Rounding a number to single precision: encode to binary32, decode back. -/
def f32round (q : ℚ) : ℚ := ratOfF32bits (f32bitsOfRat q)

def setFloat32 (view : View) (off : ℕ) (value : ℚ) : View :=
  fun i =>
    if i = off then f32bitsOfRat value % 256
    else if i = off + 1 then f32bitsOfRat value / 256 % 256
    else if i = off + 2 then f32bitsOfRat value / 65536 % 256
    else if i = off + 3 then f32bitsOfRat value / 16777216 % 256
    else view i

def getFloat32 (view : View) (off : ℕ) : ℚ :=
  ratOfF32bits (view off + view (off + 1) * 256 + view (off + 2) * 65536 +
    view (off + 3) * 16777216)

/-! #### Field allocation (lines 53-98) -/

structure Field where
  offset : ℕ
  size : ℕ
  read : View → ℕ → ℚ
  write : View → ℕ → ℚ → View

def UINT8_SIZE : ℕ := 1
def UINT32_SIZE : ℕ := 4
def FLOAT32_SIZE : ℕ := 4

/-- The allocator `allocUint8Field` (lines 64-74); the allocator record's `iota` is state
threaded through the call, returned updated. -/
def allocUint8Field (iota : ℕ) : Field × ℕ :=
  ({ offset := iota
     size := UINT8_SIZE
     read := fun view baseOffset => getUint8 view (baseOffset + iota)
     write := fun view baseOffset value => setUint8 view (baseOffset + iota) value },
   iota + UINT8_SIZE)

/-- The allocator `allocUint32Field` (lines 76-86). -/
def allocUint32Field (iota : ℕ) : Field × ℕ :=
  ({ offset := iota
     size := UINT32_SIZE
     read := fun view baseOffset => getUint32 view (baseOffset + iota)
     write := fun view baseOffset value => setUint32 view (baseOffset + iota) value },
   iota + UINT32_SIZE)

/-- The allocator `allocFloat32Field` (lines 88-98). -/
def allocFloat32Field (iota : ℕ) : Field × ℕ :=
  ({ offset := iota
     size := FLOAT32_SIZE
     read := fun view baseOffset => getFloat32 view (baseOffset + iota)
     write := fun view baseOffset value => setFloat32 view (baseOffset + iota) value },
   iota + FLOAT32_SIZE)

structure HelloLayout where
  kind : Field
  id : Field
  x : Field
  y : Field
  hue : Field
  size : ℕ

/-- The schema `HelloStruct` (lines 101-111): `[kind: Uint8] [id: Uint32] [x: Float32]
[y: Float32] [hue: Uint8]`, allocated in declaration order from a fresh
allocator starting at `iota = 0`. -/
def HelloStruct : HelloLayout :=
  let allocator0 : ℕ := 0
  let r1 := allocUint8Field allocator0
  let r2 := allocUint32Field r1.2
  let r3 := allocFloat32Field r2.2
  let r4 := allocFloat32Field r3.2
  let r5 := allocUint8Field r4.2
  { kind := r1.1, id := r2.1, x := r3.1, y := r4.1, hue := r5.1, size := r5.2 }

/-- Claim C3: the handshake schema assigns offsets cumulatively in declaration
order: `kind` at 0, `id` at 1, `x` at 5, `y` at 9, `hue` at 13, total size 14
bytes. -/
theorem HelloStruct_layout :
    HelloStruct.kind.offset = 0 ∧ HelloStruct.id.offset = 1 ∧
    HelloStruct.x.offset = 5 ∧ HelloStruct.y.offset = 9 ∧
    HelloStruct.hue.offset = 13 ∧ HelloStruct.size = 14 :=
  ⟨rfl, rfl, rfl, rfl, rfl, rfl⟩

theorem ratTrunc_intCast (v : ℤ) : ratTrunc (v : ℚ) = v := by
  unfold ratTrunc
  split <;> simp

theorem toJsUint_intCast (w : ℕ) (v : ℤ) : toJsUint w (v : ℚ) = (v % (2 ^ w : ℤ)).toNat := by
  unfold toJsUint
  rw [ratTrunc_intCast]

theorem getUint8_setUint8 (view : View) (off : ℕ) (q : ℚ) :
    getUint8 (setUint8 view off q) off = ((toJsUint 8 q : ℕ) : ℚ) := by
  simp [getUint8, setUint8]

theorem getUint32_setUint32 (view : View) (off : ℕ) (q : ℚ) :
    getUint32 (setUint32 view off q) off = ((toJsUint 32 q : ℕ) : ℚ) := by
  have hb : toJsUint 32 q < 4294967296 := by
    unfold toJsUint
    have h2 : (2 : ℤ) ^ (32 : ℕ) = 4294967296 := by norm_num
    rw [h2]
    omega
  simp only [getUint32, setUint32]
  norm_num
  norm_cast
  omega

/-- Claim C10: writing an integer through the uint8 field `HelloStruct.hue`
stores it reduced by the sign-correct modulo 256, so the read-back equals the
written value exactly iff that value lies in `[0, 256)`; the uint32 field
`HelloStruct.id` behaves the same with modulus `2^32`. -/
theorem uint_field_roundtrip (view : View) (base : ℕ) (v : ℤ) :
    (HelloStruct.hue.read (HelloStruct.hue.write view base (v : ℚ)) base
        = ((v % 256 : ℤ) : ℚ) ∧
      (HelloStruct.hue.read (HelloStruct.hue.write view base (v : ℚ)) base = (v : ℚ)
        ↔ 0 ≤ v ∧ v < 256)) ∧
    (HelloStruct.id.read (HelloStruct.id.write view base (v : ℚ)) base
        = ((v % 4294967296 : ℤ) : ℚ) ∧
      (HelloStruct.id.read (HelloStruct.id.write view base (v : ℚ)) base = (v : ℚ)
        ↔ 0 ≤ v ∧ v < 4294967296)) := by
  have h8 : HelloStruct.hue.read (HelloStruct.hue.write view base (v : ℚ)) base
      = ((v % 256 : ℤ) : ℚ) := by
    show getUint8 (setUint8 view (base + 13) (v : ℚ)) (base + 13) = _
    rw [getUint8_setUint8, toJsUint_intCast]
    have h2 : (2 : ℤ) ^ (8 : ℕ) = 256 := by norm_num
    rw [h2]
    have hnn : (0 : ℤ) ≤ v % 256 := Int.emod_nonneg v (by norm_num)
    exact_mod_cast congrArg (Int.cast : ℤ → ℚ) (Int.toNat_of_nonneg hnn)
  have h32 : HelloStruct.id.read (HelloStruct.id.write view base (v : ℚ)) base
      = ((v % 4294967296 : ℤ) : ℚ) := by
    show getUint32 (setUint32 view (base + 1) (v : ℚ)) (base + 1) = _
    rw [getUint32_setUint32, toJsUint_intCast]
    have h2 : (2 : ℤ) ^ (32 : ℕ) = 4294967296 := by norm_num
    rw [h2]
    have hnn : (0 : ℤ) ≤ v % 4294967296 := Int.emod_nonneg v (by norm_num)
    exact_mod_cast congrArg (Int.cast : ℤ → ℚ) (Int.toNat_of_nonneg hnn)
  refine ⟨⟨h8, ?_⟩, ⟨h32, ?_⟩⟩
  · rw [h8]
    constructor
    · intro h
      have hh : v % 256 = v := by exact_mod_cast h
      omega
    · intro h
      have hh : v % 256 = v := by omega
      rw [hh]
  · rw [h32]
    constructor
    · intro h
      have hh : v % 4294967296 = v := by exact_mod_cast h
      omega
    · intro h
      have hh : v % 4294967296 = v := by omega
      rw [hh]

theorem uint_field_roundtrip_witness :
    ((fun _ => 0 : View) 0 = 0) ∧
    (HelloStruct.hue.read (HelloStruct.hue.write (fun _ => 0) 0 ((300 : ℤ) : ℚ)) 0
      = (((300 : ℤ) % 256 : ℤ) : ℚ)) :=
  ⟨rfl, (uint_field_roundtrip (fun _ => 0) 0 300).1.1⟩

theorem f32bits_lt (q : ℚ) : f32bitsOfRat q < 4294967296 := by
  have hm : f32mantissa q < 16777216 := by
    unfold f32mantissa
    split <;> omega
  unfold f32bitsOfRat f32sign
  split_ifs <;> omega

/-- Encoding of a handshake record at base offset 0, writing every field of
`HelloStruct` through its field writer (the `kind` byte carries
`MessageKind.Hello = 0`). -/
def writeHello (view : View) (id : ℕ) (x y : ℚ) (hue : ℕ) : View :=
  HelloStruct.hue.write
    (HelloStruct.y.write
      (HelloStruct.x.write
        (HelloStruct.id.write
          (HelloStruct.kind.write view 0 0)
          0 (id : ℚ))
        0 x)
      0 y)
    0 (hue : ℚ)

theorem toJsUint_natCast (w : ℕ) (n : ℕ) (h : n < 2 ^ w) : toJsUint w (n : ℚ) = n := by
  have hcast : ((n : ℕ) : ℚ) = ((n : ℤ) : ℚ) := by push_cast; rfl
  rw [hcast, toJsUint_intCast]
  rw [Int.emod_eq_of_lt (by positivity) (by exact_mod_cast h)]
  exact Int.toNat_natCast n

/-- Claim C4: writing all handshake fields and reading them back returns `id`
and `hue` exactly (for in-range values) and `x`, `y` rounded to single
precision. -/
theorem hello_roundtrip (view : View) (id hue : ℕ) (x y : ℚ)
    (hid : id < 4294967296) (hhue : hue < 256) :
    HelloStruct.id.read (writeHello view id x y hue) 0 = (id : ℚ) ∧
    HelloStruct.hue.read (writeHello view id x y hue) 0 = (hue : ℚ) ∧
    HelloStruct.x.read (writeHello view id x y hue) 0 = f32round x ∧
    HelloStruct.y.read (writeHello view id x y hue) 0 = f32round y := by
  have hid32 : toJsUint 32 ((id : ℕ) : ℚ) = id := toJsUint_natCast 32 id (by norm_num; omega)
  have hhue8 : toJsUint 8 ((hue : ℕ) : ℚ) = hue := toJsUint_natCast 8 hue (by norm_num; omega)
  refine ⟨?_, ?_, ?_, ?_⟩
  · show getUint32
      (setUint8 (setFloat32 (setFloat32 (setUint32 (setUint8 view 0 0) 1 (id : ℚ)) 5 x) 9 y)
        13 (hue : ℚ)) 1 = (id : ℚ)
    simp [getUint32, setUint8, setFloat32, setUint32, hid32]
    norm_cast
    omega
  · show getUint8
      (setUint8 (setFloat32 (setFloat32 (setUint32 (setUint8 view 0 0) 1 (id : ℚ)) 5 x) 9 y)
        13 (hue : ℚ)) 13 = (hue : ℚ)
    simp [getUint8, setUint8, hhue8]
  · show getFloat32
      (setUint8 (setFloat32 (setFloat32 (setUint32 (setUint8 view 0 0) 1 (id : ℚ)) 5 x) 9 y)
        13 (hue : ℚ)) 5 = f32round x
    simp only [getFloat32, setUint8, setFloat32]
    norm_num
    exact congrArg ratOfF32bits (by have := f32bits_lt x; omega)
  · show getFloat32
      (setUint8 (setFloat32 (setFloat32 (setUint32 (setUint8 view 0 0) 1 (id : ℚ)) 5 x) 9 y)
        13 (hue : ℚ)) 9 = f32round y
    simp only [getFloat32, setUint8, setFloat32]
    norm_num
    exact congrArg ratOfF32bits (by have := f32bits_lt y; omega)

theorem hello_roundtrip_witness :
    HelloStruct.id.read (writeHello (fun _ => 0) 305419896 790 (601/2) 200) 0
        = ((305419896 : ℕ) : ℚ) ∧
    HelloStruct.hue.read (writeHello (fun _ => 0) 305419896 790 (601/2) 200) 0
        = ((200 : ℕ) : ℚ) ∧
    HelloStruct.x.read (writeHello (fun _ => 0) 305419896 790 (601/2) 200) 0
        = f32round 790 ∧
    HelloStruct.y.read (writeHello (fun _ => 0) 305419896 790 (601/2) 200) 0
        = f32round (601/2) :=
  hello_roundtrip (fun _ => 0) 305419896 200 790 (601/2) (by norm_num) (by norm_num)

/-! ### Untyped wire values and validators (lines 24-26, 36-46, 113-173) -/

/-- An untyped JavaScript value as seen by a validator after `JSON.parse`:
primitives, plus plain objects with ordered own string-keyed fields. (`NaN`
and the infinities are not needed by any claim and are not modelled.) -/
inductive JSValue where
  | undefined
  | null
  | bool (b : Bool)
  | num (q : ℚ)
  | str (s : String)
  | obj (fields : List (String × JSValue))

/-- JavaScript truthiness: `undefined`, `null`, `false`, `0` and the empty
string are falsy; every object is truthy. -/
def truthy : JSValue → Bool
  | .undefined => false
  | .null => false
  | .bool b => b
  | .num q => decide (q ≠ 0)
  | .str s => decide (s ≠ "")
  | .obj _ => true

/-- Property access `value.key` as the validators perform it: an own field of
a plain object, `undefined` otherwise (none of the accessed keys — `kind`,
`id`, `x`, `y`, `hue`, `start`, `direction` — exists on the primitive
wrapper prototypes). Access on `null`/`undefined` would throw, but every
validator short-circuits on falsy arguments before accessing anything. -/
def getProp : JSValue → String → JSValue
  | .obj fields, key => (((fields.find? (fun f => f.1 == key)).map Prod.snd).getD .undefined)
  | _, _ => .undefined

/-- Strict equality `value === 'lit'` against a string literal. -/
def strictEqStr (v : JSValue) (lit : String) : Bool :=
  match v with
  | .str s => s == lit
  | _ => false

/-- `typeof(arg) === 'number'` (lines 36-38). -/
def isNumber : JSValue → Bool
  | .num _ => true
  | _ => false

/-- `typeof(arg) === 'string'` (lines 40-42). -/
def isString : JSValue → Bool
  | .str _ => true
  | _ => false

/-- `typeof(arg) === 'boolean'` (lines 44-46). -/
def isBoolean : JSValue → Bool
  | .bool _ => true
  | _ => false

/-- Own keys of the `DIRECTION_VECTORS` object literal. -/
def directionKeys : List String := ["left", "right", "up", "down"]

/-- Property names every plain object literal inherits from
`Object.prototype`: for these keys `DIRECTION_VECTORS[key]` yields the
inherited method (or prototype accessor), which is `!== undefined`. -/
def objectPrototypeKeys : List String :=
  ["constructor", "hasOwnProperty", "isPrototypeOf", "propertyIsEnumerable",
   "toLocaleString", "toString", "valueOf", "__proto__",
   "__defineGetter__", "__defineSetter__", "__lookupGetter__", "__lookupSetter__"]

/-- `isDirection(arg) = DIRECTION_VECTORS[arg as Direction] !== undefined`
(lines 24-26). JS bracket lookup coerces a non-string key to its string form
(`"true"`, `"null"`, `"[object Object]"`, a numeric string, ...), none of
which names a property of the direction table; for string keys the lookup
walks the prototype chain, so it finds the four own direction keys and every
property inherited from `Object.prototype`. -/
def isDirection (arg : JSValue) : Bool :=
  match arg with
  | .str s => decide (s ∈ directionKeys) || decide (s ∈ objectPrototypeKeys)
  | _ => false

/-- `isPlayerJoined` (lines 121-128). The JS expression `arg && ...` is used
as a boolean (the declared type is a type predicate), so each validator is
modelled as the truthiness of its result. -/
def isPlayerJoined (arg : JSValue) : Bool :=
  truthy arg
    && strictEqStr (getProp arg "kind") "PlayerJoined"
    && isNumber (getProp arg "id")
    && isNumber (getProp arg "x")
    && isNumber (getProp arg "y")
    && isNumber (getProp arg "hue")

/-- `isPlayerLeft` (lines 135-139). -/
def isPlayerLeft (arg : JSValue) : Bool :=
  truthy arg
    && strictEqStr (getProp arg "kind") "PlayerLeft"
    && isNumber (getProp arg "id")

/-- `isAmmaMoving` (lines 147-152). -/
def isAmmaMoving (arg : JSValue) : Bool :=
  truthy arg
    && strictEqStr (getProp arg "kind") "AmmaMoving"
    && isBoolean (getProp arg "start")
    && isDirection (getProp arg "direction")

/-- `isPlayerMoving` (lines 163-171). -/
def isPlayerMoving (arg : JSValue) : Bool :=
  truthy arg
    && strictEqStr (getProp arg "kind") "PlayerMoving"
    && isNumber (getProp arg "id")
    && isNumber (getProp arg "x")
    && isNumber (getProp arg "y")
    && isBoolean (getProp arg "start")
    && isDirection (getProp arg "direction")

/-- Claim C2 is refuted by the code: the `PlayerMoving` validator accepts a
payload whose `direction` is `"toString"`, a string outside the Direction
Table's key set `\x7bleft, right, up, down\x7d`, because
`DIRECTION_VECTORS["toString"]` is the method inherited from
`Object.prototype` and therefore `!== undefined`. -/
theorem isPlayerMoving_accepts_toString :
    isPlayerMoving (.obj [("kind", .str "PlayerMoving"), ("id", .num 0), ("x", .num 0),
      ("y", .num 0), ("start", .bool true), ("direction", .str "toString")]) = true ∧
    ("toString" ∈ directionKeys ↔ False) := by
  constructor
  · rfl
  · simp [directionKeys]

/-! ### Message codec (lines 198-206) -/

/-- Decimal form of a JS number. Integral values (the only numbers whose
printed form any claim touches) print as their decimal digits; JS prints
non-integral values in decimal or exponent notation, which this model
abbreviates as `num/den`. -/
def jsNumToString (q : ℚ) : String :=
  if q.den = 1 then toString q.num else toString q.num ++ "/" ++ toString q.den

/-- JSON string escaping for the quote and backslash characters (the control
character escapes are never hit by protocol messages and are omitted). -/
def jsonEscapeChar (c : Char) : String :=
  if c = '"' then "\\\"" else if c = '\\' then "\\\\" else String.singleton c

def jsonEscape (s : String) : String := String.join (s.toList.map jsonEscapeChar)

mutual

/-- `JSON.stringify` on the values the codec is given: members are emitted in
insertion order. (A top-level `undefined` returns no string in JS and members
with `undefined` values are omitted; protocol messages contain neither, and
no claim depends on those cases.) -/
def jsonStringify : JSValue → String
  | .undefined => "null"
  | .null => "null"
  | .bool b => if b then "true" else "false"
  | .num q => jsNumToString q
  | .str s => "\"" ++ jsonEscape s ++ "\""
  | .obj fields => "\x7b" ++ jsonMembers fields ++ "\x7d"

def jsonMembers : List (String × JSValue) → String
  | [] => ""
  | [(k, v)] => "\"" ++ jsonEscape k ++ "\":" ++ jsonStringify v
  | (k, v) :: rest =>
      "\"" ++ jsonEscape k ++ "\":" ++ jsonStringify v ++ "," ++ jsonMembers rest

end

/-- The socket capability used by `sendMessage`: anything with a
single-argument `send`. The model records the payloads passed to `send`, in
order. -/
structure WebSocketModel where
  sent : List String

def wsSend (socket : WebSocketModel) (payload : String) : WebSocketModel :=
  { sent := socket.sent ++ [payload] }

/-- `sendMessage(socket, message)` (lines 202-206): stringify the message,
call `send` with the text, return the text's length. (JS `String#length`
counts UTF-16 units, which for the ASCII protocol payloads equals the
character count used here.) -/
def sendMessage (socket : WebSocketModel) (message : JSValue) : WebSocketModel × ℕ :=
  let text := jsonStringify message
  (wsSend socket text, text.length)

/-- Claim C8: `sendMessage` encodes the message, invokes the socket's send
operation exactly once with exactly the encoded payload, and returns the
encoded payload's length; concretely, a `PlayerLeft` message for id 5 sends
the 28-character JSON text. -/
theorem sendMessage_sends_once (socket : WebSocketModel) (message : JSValue) :
    (sendMessage socket message).1.sent = socket.sent ++ [jsonStringify message] ∧
    (sendMessage socket message).2 = (jsonStringify message).length ∧
    jsonStringify (.obj [("kind", .str "PlayerLeft"), ("id", .num 5)])
      = "\x7b\"kind\":\"PlayerLeft\",\"id\":5\x7d" ∧
    (sendMessage ⟨[]⟩ (.obj [("kind", .str "PlayerLeft"), ("id", .num 5)])).2 = 28 := by
  have henc : jsonStringify (.obj [("kind", .str "PlayerLeft"), ("id", .num 5)])
      = "\x7b\"kind\":\"PlayerLeft\",\"id\":5\x7d" := by
    simp [jsonStringify, jsonMembers, jsNumToString, jsonEscape, jsonEscapeChar]
    decide
  refine ⟨rfl, rfl, henc, ?_⟩
  show (jsonStringify (.obj [("kind", .str "PlayerLeft"), ("id", .num 5)])).length = 28
  rw [henc]
  rfl

end Common
